import Mathlib

/-!
Shallow embedding of the rust-gateway streaming/proxy layer.

The definitions below are translated from `src/rust-gateway/src`:
  * `routes/stream.rs` — the WebSocket streaming endpoint (`handle_socket`,
    `call_agent_stream`), i.e. the Streaming Pacer and the Connection Session;
  * `routes/chat.rs` — the unary chat handler (`handle_chat`), i.e. the
    Response Translator and the Fallback Policy;
  * `routes/actions.rs` / `routes/tools.rs` — the proxy-only routes;
  * `proxy/grpc_client.rs` — the Upstream Client and its wire types.

Text is modelled as `List Char`.  Network effects are modelled by passing the
upstream HTTP result in explicitly; the WebSocket `send` operation is modelled
by an oracle `Nat → Bool` giving the result of the k-th send attempt of a
turn.  Time (the pacing sleeps) is not modelled: sleeps do not affect which
frames are emitted or their order.
-/

namespace Gateway

/-- Unicode `White_Space` characters; this is exactly Rust's
`char::is_whitespace`, which `str::split_whitespace` splits on. -/
def isWs (c : Char) : Bool :=
  let n := c.toNat
  (9 ≤ n && n ≤ 13) || n == 32 || n == 0x85 || n == 0xA0 || n == 0x1680 ||
    (0x2000 ≤ n && n ≤ 0x200A) || n == 0x2028 || n == 0x2029 || n == 0x202F ||
    n == 0x205F || n == 0x3000

/-- Helper for `splitWs`: `acc` is the current word read so far, reversed.
A whitespace character closes the current word (if any); a non-whitespace
character extends it. -/
def splitWsAux : List Char → List Char → List (List Char)
  | [], acc => if acc.isEmpty then [] else [acc.reverse]
  | c :: cs, acc =>
      if isWs c then
        if acc.isEmpty then splitWsAux cs [] else acc.reverse :: splitWsAux cs []
      else splitWsAux cs (c :: acc)

/-- Rust's `str::split_whitespace`: the maximal runs of non-whitespace
characters, in order; leading/trailing/repeated whitespace produces no empty
words.  Used at `stream.rs:99`. -/
def splitWs (l : List Char) : List (List Char) :=
  splitWsAux l []

/-- The delta contents, one per word: the word itself for index 0, a space
prepended for every later index (`stream.rs:103`). -/
def deltaStrings (words : List (List Char)) : List (List Char) :=
  words.enum.map (fun p => if p.fst = 0 then p.snd else ' ' :: p.snd)

/-- Concatenation of all Delta frame contents the pacer produces for reply
text `t` (`stream.rs:99-112`). -/
def concatDeltas (t : List Char) : List Char :=
  (deltaStrings (splitWs t)).flatten

/-- Helper for `collapseWs`: `prevWs` records whether the previous character
was whitespace (so only the first character of a whitespace run emits the
single space). -/
def collapseAux : List Char → Bool → List Char
  | [], _ => []
  | c :: cs, prevWs =>
      if isWs c then
        if prevWs then collapseAux cs true else ' ' :: collapseAux cs true
      else c :: collapseAux cs false

/-- Every maximal run of whitespace replaced by one single space, position
kept (so a leading or trailing run becomes a leading or trailing space).
This formalises the claim's words "every run of whitespace collapsed to a
single space"; it is compared against what the code computes. -/
def collapseWs (l : List Char) : List Char :=
  collapseAux l false

/-- Trailing whitespace removed. -/
def dropTrailingWs (l : List Char) : List Char :=
  (l.reverse.dropWhile isWs).reverse

/-- Leading and trailing whitespace removed. -/
def trimWs (l : List Char) : List Char :=
  dropTrailingWs (l.dropWhile isWs)

/-- One frame of the streaming wire protocol: the four `StreamChunk` variants
of `stream.rs` plus the out-of-band error shape sent at `stream.rs:72,124`. -/
inductive Frame where
  | reasoning (step : Nat) (stepType : List Char) (content : List Char)
  | delta (text : List Char)
  | artifact (id : List Char) (title : List Char) (contentDelta : List Char)
  | done
  | errorFrame (message : List Char)
deriving DecidableEq, Repr

/-- One `socket.send` attempt: the frame handed to `send` and whether the
send succeeded. -/
structure SendEvent where
  frame : Frame
  ok : Bool
deriving DecidableEq, Repr

/-- The canned reasoning contents of `stream.rs:81`. -/
def reasoningContents : List (List Char) :=
  ["Analyzing query".data, "Retrieving context".data, "Synthesizing response".data]

/-- The step kind chosen at `stream.rs:87` from the zero-based loop index. -/
def stepTypeName (i : Nat) : List Char :=
  if i = 0 then "analysis".data else if i = 1 then "retrieval".data else "synthesis".data

/-- The three Reasoning frames of `stream.rs:81-91`, step numbers `i + 1`. -/
def reasoningFrames : List Frame :=
  reasoningContents.enum.map (fun p => Frame.reasoning (p.fst + 1) (stepTypeName p.fst) p.snd)

/-- The Delta frames of `stream.rs:100-106` for a given word list. -/
def deltaFrames (words : List (List Char)) : List Frame :=
  (deltaStrings words).map Frame.delta

/-- One `for`-loop of `handle_socket` that sends each frame in turn and
`break`s after the first failed send (`stream.rs:92-94` and `107-109`).
Returns the send events of the loop and the next send-attempt counter. -/
def runPhase (frames : List Frame) (oracle : Nat → Bool) (k : Nat) :
    List SendEvent × Nat :=
  match frames with
  | [] => ([], k)
  | f :: fs =>
      if oracle k then
        let r := runPhase fs oracle (k + 1)
        (⟨f, true⟩ :: r.1, r.2)
      else
        ([⟨f, false⟩], k + 1)

/-- The send events of one streaming turn, given the outcome of
`call_agent_stream` (`stream.rs:78-126`): on `Err` a single error frame; on
`Ok` the reasoning loop, then the delta loop, then one Done send whose
result is discarded.  A `break` leaves only its own loop. -/
def pacerTrace (outcome : Except (List Char) (List Char)) (oracle : Nat → Bool) :
    List SendEvent :=
  match outcome with
  | .error e => [⟨Frame.errorFrame e, oracle 0⟩]
  | .ok t =>
      let p1 := runPhase reasoningFrames oracle 0
      let p2 := runPhase (deltaFrames (splitWs t)) oracle p1.2
      p1.1 ++ p2.1 ++ [⟨Frame.done, oracle p2.2⟩]

/-- The frames actually delivered: those whose send succeeded. -/
def sentFrames (evs : List SendEvent) : List Frame :=
  (evs.filter (fun e => e.ok)).map (fun e => e.frame)

/-- Whether a frame is a Reasoning frame. -/
def Frame.isReasoning : Frame → Bool
  | .reasoning _ _ _ => true
  | _ => false

/-- Whether a frame is a Delta frame. -/
def Frame.isDelta : Frame → Bool
  | .delta _ => true
  | _ => false

/-- Words joined with one separating space: the first word bare, each later
word preceded by a single space. -/
def joinSp : List (List Char) → List Char
  | [] => []
  | w :: ws => w ++ (ws.map (fun v => ' ' :: v)).flatten

/-- A parsed JSON value (what `serde_json::Value` holds after a successful
parse).  Objects are key/value lists with the keys already deduplicated, as
`serde_json`'s map keeps only the last duplicate. -/
inductive Json where
  | null
  | bool (b : Bool)
  | num (n : Int)
  | str (s : List Char)
  | arr (xs : List Json)
  | obj (kvs : List (List Char × Json))

/-- Key lookup in a JSON object list, first match. -/
def jsonLookup (kvs : List (List Char × Json)) (key : List Char) : Option Json :=
  (kvs.find? (fun kv => kv.fst == key)).map (fun kv => kv.snd)

/-- `serde_json::Value::index` by a string key followed by `.as_str()`:
`some s` exactly when the value is an object whose `key` member is a JSON
string (`stream.rs:172`). -/
def valueIndexAsStr (j : Json) (key : List Char) : Option (List Char) :=
  match j with
  | .obj kvs =>
      match jsonLookup kvs key with
      | some (.str s) => some s
      | _ => none
  | _ => none

/-- The result of the one upstream HTTP POST, before the gateway interprets
it: either a transport failure (with `reqwest`'s message) or a response with
a status code and a body.  The body is carried as `serde_json`'s parse
result, `Except` the parse error message. -/
inductive HttpResult where
  | transportErr (msg : List Char)
  | response (status : Nat) (body : Except (List Char) Json)

/-- `reqwest::StatusCode::is_success`: 2xx. -/
def statusIsSuccess (s : Nat) : Bool :=
  200 ≤ s && s < 300

/-- Decimal rendering of the status code used in the error message. -/
def natToChars (n : Nat) : List Char :=
  (toString n).data

/-- `call_agent_stream` (`stream.rs:144-173`): transport failure, then
non-2xx status, then JSON parse of the body are the error paths; on a parsed
body the reply text is the `"response"` string member, or the canned
placeholder when that member is absent or not a string. -/
def call_agent_stream (r : HttpResult) : Except (List Char) (List Char) :=
  match r with
  | .transportErr e => .error ("Failed to reach agent service: ".data ++ e)
  | .response status body =>
      if statusIsSuccess status then
        match body with
        | .error e => .error ("Failed to parse response: ".data ++ e)
        | .ok j =>
            .ok ((valueIndexAsStr j "response".data).getD "I understand. How can I help?".data)
      else
        .error ("Agent service error: ".data ++ natToChars status)

/-- The upstream results `call_agent_stream` turns into `Err`: transport
failure, non-2xx status, or a body that is not valid JSON. -/
def upstreamCallFails (r : HttpResult) : Bool :=
  match r with
  | .transportErr _ => true
  | .response status body =>
      !statusIsSuccess status ||
        (match body with
         | .error _ => true
         | .ok _ => false)

/-- The failure detail string `call_agent_stream` reports for a failing
upstream result (junk for a non-failing one). -/
def failDetail (r : HttpResult) : List Char :=
  match r with
  | .transportErr e => "Failed to reach agent service: ".data ++ e
  | .response status body =>
      if statusIsSuccess status then
        match body with
        | .error e => "Failed to parse response: ".data ++ e
        | .ok _ => []
      else
        "Agent service error: ".data ++ natToChars status

/-! ### serde-style decoding of wire structs -/

/-- A required JSON string field value. -/
def decodeStr : Json → Option (List Char)
  | .str s => some s
  | _ => none

/-- A JSON number decoded as an `i32` (`serde` rejects out-of-range). -/
def decodeI32 : Json → Option Int
  | .num n => if -(2 ^ 31) ≤ n ∧ n < 2 ^ 31 then some n else none
  | _ => none

/-- A JSON number decoded as an `i64`. -/
def decodeI64 : Json → Option Int
  | .num n => if -(2 ^ 63) ≤ n ∧ n < 2 ^ 63 then some n else none
  | _ => none

/-- `serde`'s handling of an `Option<T>` field: a missing member or an
explicit `null` is `None`; any other value must decode as `T`. -/
def decodeOptField (f : Json → Option α) : Option Json → Option (Option α)
  | none => some none
  | some .null => some none
  | some j => (f j).map some

/-- `serde`'s handling of a `#[serde(default)]` field: a missing member is
the default; a present member must decode. -/
def decodeDefField (f : Json → Option α) (dflt : α) : Option Json → Option α
  | none => some dflt
  | some j => f j

/-- A JSON array with every element decoded. -/
def decodeList (f : Json → Option α) : Json → Option (List α)
  | .arr xs => xs.mapM f
  | _ => none

/-- `grpc_client.rs` `ReasoningStep`: `step: i32`, `type: String` (renamed),
`content: String`, `duration_ms: Option<i64>`. -/
structure GReasoningStep where
  step : Int
  stepType : List Char
  content : List Char
  durationMs : Option Int
deriving DecidableEq, Repr

/-- `grpc_client.rs` `Artifact`. -/
structure GArtifact where
  id : List Char
  artifactType : List Char
  title : List Char
  content : List Char
  language : Option (List Char)
deriving DecidableEq, Repr

/-- `grpc_client.rs` `ChatResponse` — the spec's ChatReply: `response` and
`reasoning` required, `artifacts`/`citations` defaulting to empty. -/
structure GChatReply where
  response : List Char
  reasoning : List GReasoningStep
  artifacts : List GArtifact
  citations : List (List Char)
deriving DecidableEq, Repr

/-- serde decode of `grpc_client.rs::ReasoningStep`. -/
def decodeGStep (j : Json) : Option GReasoningStep :=
  match j with
  | .obj kvs => do
      let step ← (jsonLookup kvs "step".data).bind decodeI32
      let st ← (jsonLookup kvs "type".data).bind decodeStr
      let content ← (jsonLookup kvs "content".data).bind decodeStr
      let dur ← decodeOptField decodeI64 (jsonLookup kvs "duration_ms".data)
      some ⟨step, st, content, dur⟩
  | _ => none

/-- serde decode of `grpc_client.rs::Artifact`. -/
def decodeGArtifact (j : Json) : Option GArtifact :=
  match j with
  | .obj kvs => do
      let id ← (jsonLookup kvs "id".data).bind decodeStr
      let ty ← (jsonLookup kvs "type".data).bind decodeStr
      let title ← (jsonLookup kvs "title".data).bind decodeStr
      let content ← (jsonLookup kvs "content".data).bind decodeStr
      let lang ← decodeOptField decodeStr (jsonLookup kvs "language".data)
      some ⟨id, ty, title, content, lang⟩
  | _ => none

/-- serde decode of a JSON body into the ChatReply
(`grpc_client.rs::ChatResponse`): `none` is a body that fails to decode into
a ChatReply. -/
def chatReplyOfJson (j : Json) : Option GChatReply :=
  match j with
  | .obj kvs => do
      let resp ← (jsonLookup kvs "response".data).bind decodeStr
      let reasoning ← (jsonLookup kvs "reasoning".data).bind (decodeList decodeGStep)
      let artifacts ← decodeDefField (decodeList decodeGArtifact) [] (jsonLookup kvs "artifacts".data)
      let citations ← decodeDefField (decodeList decodeStr) [] (jsonLookup kvs "citations".data)
      some ⟨resp, reasoning, artifacts, citations⟩
  | _ => none

/-- `stream.rs` `HistoryMessage`: both fields required strings. -/
structure SHistoryMessage where
  role : List Char
  content : List Char
deriving DecidableEq, Repr

/-- `stream.rs` `StreamRequest`. -/
structure StreamRequest where
  query : List Char
  conversationId : List Char
  contextEntities : List (List Char)
  sessionId : Option (List Char)
  provider : Option (List Char)
  model : Option (List Char)
  history : List SHistoryMessage
deriving DecidableEq, Repr

/-- serde decode of `stream.rs::HistoryMessage`. -/
def decodeSHistory (j : Json) : Option SHistoryMessage :=
  match j with
  | .obj kvs => do
      let role ← (jsonLookup kvs "role".data).bind decodeStr
      let content ← (jsonLookup kvs "content".data).bind decodeStr
      some ⟨role, content⟩
  | _ => none

/-- serde decode of a JSON value into `stream.rs::StreamRequest`: `query`
and `conversation_id` required strings, `context_entities` and `history`
defaulted, the three selector fields optional. -/
def streamRequestOfJson (j : Json) : Option StreamRequest :=
  match j with
  | .obj kvs => do
      let query ← (jsonLookup kvs "query".data).bind decodeStr
      let conv ← (jsonLookup kvs "conversation_id".data).bind decodeStr
      let ents ← decodeDefField (decodeList decodeStr) [] (jsonLookup kvs "context_entities".data)
      let sess ← decodeOptField decodeStr (jsonLookup kvs "session_id".data)
      let prov ← decodeOptField decodeStr (jsonLookup kvs "provider".data)
      let model ← decodeOptField decodeStr (jsonLookup kvs "model".data)
      let hist ← decodeDefField (decodeList decodeSHistory) [] (jsonLookup kvs "history".data)
      some ⟨query, conv, ents, sess, prov, model, hist⟩
  | _ => none

/-- `serde_json::from_str::<StreamRequest>` at `stream.rs:69`, taking the
textual parse stage as already performed (`Except` its error message).  The
message for a well-formed JSON value of the wrong shape is serde's; its exact
text is immaterial here and is modelled by a fixed placeholder. -/
def decodeStreamRequest : Except (List Char) Json → Except (List Char) StreamRequest
  | .error e => .error e
  | .ok j =>
      match streamRequestOfJson j with
      | some r => .ok r
      | none => .error "invalid stream request".data

/-! ### The Connection Session (`handle_socket`'s read loop) -/

/-- One inbound WebSocket message as `handle_socket` matches it
(`stream.rs:63-137`): a text message (carried as its JSON parse result), a
close message, a transport error, or anything else (binary, ping, pong —
the final catch-all arm that does nothing). -/
inductive InMsg where
  | text (parsed : Except (List Char) Json)
  | close
  | transportErr
  | other

/-- What processing one inbound message does: the send events it produced,
whether the read loop continues, and whether the upstream was called. -/
structure StepResult where
  events : List SendEvent
  keepOpen : Bool
  upstreamCalled : Bool
deriving DecidableEq, Repr

/-- One iteration of `handle_socket`'s `while let` loop.  `upstream` is the
result the upstream HTTP call would produce if made this turn; `oracle`
gives this turn's send results. -/
def sessionStep (m : InMsg) (upstream : HttpResult) (oracle : Nat → Bool) : StepResult :=
  match m with
  | .text parsed =>
      match decodeStreamRequest parsed with
      | .error e => ⟨[⟨Frame.errorFrame e, oracle 0⟩], true, false⟩
      | .ok _ => ⟨pacerTrace (call_agent_stream upstream) oracle, true, true⟩
  | .close => ⟨[], false, false⟩
  | .transportErr => ⟨[], false, false⟩
  | .other => ⟨[], true, false⟩

/-- The whole read loop: all send events of the connection, each inbound
message paired with its would-be upstream result and send oracle.  A message
whose step clears `keepOpen` ends the loop. -/
def session : List (InMsg × HttpResult × (Nat → Bool)) → List SendEvent
  | [] => []
  | (m, u, o) :: rest =>
      let r := sessionStep m u o
      if r.keepOpen then r.events ++ session rest else r.events

/-! ### The unary chat path (`routes/chat.rs`) -/

/-- `grpc_client.rs::ClientError`. -/
inductive ClientError where
  | connectionError (msg : List Char)
  | parseError (msg : List Char)
  | serviceError (msg : List Char)
  | timeout
deriving DecidableEq, Repr

/-- `chat.rs` `HistoryMessage`. -/
structure CHistoryMessage where
  role : List Char
  content : List Char
deriving DecidableEq, Repr

/-- `chat.rs` `AttachedFile`. -/
structure AttachedFile where
  name : List Char
  fileType : List Char
  content : List Char
deriving DecidableEq, Repr

/-- `chat.rs` `ChatRequest` (inbound unary request). -/
structure ChatRequest where
  query : List Char
  conversationId : List Char
  contextEntities : List (List Char)
  sessionId : Option (List Char)
  userId : Option (List Char)
  projectId : Option (List Char)
  provider : Option (List Char)
  model : Option (List Char)
  history : List CHistoryMessage
  attachedFiles : List AttachedFile
deriving DecidableEq, Repr

/-- `chat.rs` `ReasoningStep` (outbound wire shape). -/
structure RReasoningStep where
  step : Int
  stepType : List Char
  content : List Char
  durationMs : Option Int
deriving DecidableEq, Repr

/-- `chat.rs` `Artifact` (outbound wire shape). -/
structure RArtifact where
  id : List Char
  artifactType : List Char
  title : List Char
  content : List Char
  language : Option (List Char)
deriving DecidableEq, Repr

/-- `chat.rs` `ChatResponse` (outbound wire shape): `artifacts` and
`citations` are `Option`s skipped by the serializer when `none`. -/
structure ChatResponse where
  response : List Char
  reasoning : List RReasoningStep
  artifacts : Option (List RArtifact)
  citations : Option (List (List Char))
deriving DecidableEq, Repr

/-- The Response Translator: the `Ok` branch of `handle_chat`
(`chat.rs:107-140`).  Reasoning steps pass through field by field; an empty
artifact or citation list becomes `none`, a non-empty one is kept. -/
def translate (r : GChatReply) : ChatResponse where
  response := r.response
  reasoning := r.reasoning.map (fun s => ⟨s.step, s.stepType, s.content, s.durationMs⟩)
  artifacts :=
    if r.artifacts.isEmpty then none
    else some (r.artifacts.map (fun a => ⟨a.id, a.artifactType, a.title, a.content, a.language⟩))
  citations := if r.citations.isEmpty then none else some r.citations

/-- The Fallback Policy: the `Err` branch of `handle_chat`
(`chat.rs:142-159`).  Depends only on the request, never on the failure. -/
def fallbackResponse (req : ChatRequest) : ChatResponse where
  response := "Processing query: ".data ++ req.query
  reasoning := [⟨1, "analysis".data, "Analyzing your request...".data, some 100⟩]
  artifacts := none
  citations := none

/-- `handle_chat` (`chat.rs:77-161`), with the upstream call's outcome passed
in explicitly. -/
def handle_chat (req : ChatRequest) (outcome : Except ClientError GChatReply) : ChatResponse :=
  match outcome with
  | .ok r => translate r
  | .error _ => fallbackResponse req

/-- The HTTP view of `handle_chat`: its Rust signature returns
`Json<ChatResponse>`, which axum serves with status 200 on every path. -/
def handle_chat_http (req : ChatRequest) (outcome : Except ClientError GChatReply) :
    Nat × ChatResponse :=
  (200, handle_chat req outcome)

/-- serde serialization of a `chat.rs::ReasoningStep`: `duration_ms` is
omitted when `none` (`skip_serializing_if`), `step_type` serializes under the
key `type`. -/
def jsonOfRStep (s : RReasoningStep) : Json :=
  Json.obj
    ([("step".data, Json.num s.step), ("type".data, Json.str s.stepType),
      ("content".data, Json.str s.content)] ++
      (match s.durationMs with
       | none => []
       | some d => [("duration_ms".data, Json.num d)]))

/-- serde serialization of a `chat.rs::Artifact`: `language` omitted when
`none`, `artifact_type` under the key `type`. -/
def jsonOfRArtifact (a : RArtifact) : Json :=
  Json.obj
    ([("id".data, Json.str a.id), ("type".data, Json.str a.artifactType),
      ("title".data, Json.str a.title), ("content".data, Json.str a.content)] ++
      (match a.language with
       | none => []
       | some lang => [("language".data, Json.str lang)]))

/-- serde serialization of `chat.rs::ChatResponse`: the `artifacts` and
`citations` members are omitted entirely when `none`
(`skip_serializing_if = Option::is_none`), not serialized as null or as an
empty array. -/
def jsonOfChatResponse (c : ChatResponse) : Json :=
  Json.obj
    ([("response".data, Json.str c.response),
      ("reasoning".data, Json.arr (c.reasoning.map jsonOfRStep))] ++
      (match c.artifacts with
       | none => []
       | some l => [("artifacts".data, Json.arr (l.map jsonOfRArtifact))]) ++
      (match c.citations with
       | none => []
       | some l => [("citations".data, Json.arr (l.map Json.str))]))

/-- The member keys of a JSON object (empty for non-objects). -/
def objKeys (j : Json) : List (List Char) :=
  match j with
  | .obj kvs => kvs.map (fun kv => kv.fst)
  | _ => []

/-! ### Proxy-only routes (`routes/tools.rs`, `routes/actions.rs`) -/

/-- The outcome of a proxy route's upstream call, as the `tools.rs` handlers
see it: the transport stage failed, the response body failed to decode into
the expected type, or it decoded (the re-serialized body carried as JSON). -/
inductive ProxyOutcome where
  | transportErr (msg : List Char)
  | decodeErr (msg : List Char)
  | ok (body : Json)

/-- A handler's HTTP reply: 200 with a JSON body, or a plain status/text
reply. -/
inductive HandlerReply where
  | jsonReply (j : Json)
  | statusText (status : Nat) (text : List Char)

/-- The HTTP status of a `HandlerReply` (axum's `Json` responds 200). -/
def replyStatus : HandlerReply → Nat
  | .jsonReply _ => 200
  | .statusText s _ => s

/-- `list_tools` (`tools.rs:136-164`): decoded body through, decode failure
500, transport failure 503. -/
def list_tools_reply (r : ProxyOutcome) : HandlerReply :=
  match r with
  | .ok j => .jsonReply j
  | .decodeErr _ => .statusText 500 "Failed to parse response".data
  | .transportErr _ => .statusText 503 "Agent service unavailable".data

/-- `execute_tool` (`tools.rs:167-187`): same failure convention. -/
def execute_tool_reply (r : ProxyOutcome) : HandlerReply :=
  match r with
  | .ok j => .jsonReply j
  | .decodeErr _ => .statusText 500 "Failed to parse response".data
  | .transportErr _ => .statusText 503 "Agent service unavailable".data

/-- `list_projects` (`tools.rs:328-346`): same failure convention. -/
def list_projects_reply (r : ProxyOutcome) : HandlerReply :=
  match r with
  | .ok j => .jsonReply j
  | .decodeErr _ => .statusText 500 "Failed to parse response".data
  | .transportErr _ => .statusText 503 "Agent service unavailable".data

/-- `list_endpoints` (`tools.rs:373-396`): 400 when `projectId` is missing,
otherwise the same failure convention. -/
def list_endpoints_reply (projectId : Option (List Char)) (r : ProxyOutcome) : HandlerReply :=
  match projectId with
  | none => .statusText 400 "projectId is required".data
  | some _ =>
      match r with
      | .ok j => .jsonReply j
      | .decodeErr _ => .statusText 500 "Failed to parse response".data
      | .transportErr _ => .statusText 503 "Agent service unavailable".data

/-- `actions.rs` `ActionRequest` (inbound). -/
structure ActionRequest where
  actionType : List Char
  entityId : List Char
  entityType : List Char
  source : List Char
  payload : Json
  conversationId : Option (List Char)

/-- `grpc_client.rs::ActionResponse` (what `execute_action` decodes). -/
structure ActionResponse where
  success : Bool
  actionType : List Char
  entityId : List Char
  message : List Char
  timestamp : Option (List Char)

/-- `actions.rs` `ActionResult` (outbound wire shape). -/
structure ActionResult where
  success : Bool
  actionType : List Char
  entityId : List Char
  message : List Char
  timestamp : Option (List Char)
  previousState : Option Json
  newState : Option Json

/-- `handle_action` (`actions.rs:44-89`): on upstream success the response is
passed through; on ANY `execute_action` failure a synthetic success result is
returned ("fallback mode"), with the current time `nowTs` as timestamp.  The
Rust handler returns `Json<ActionResult>`, i.e. HTTP 200 on every path. -/
def handle_action (req : ActionRequest) (nowTs : List Char)
    (outcome : Except ClientError ActionResponse) : ActionResult :=
  match outcome with
  | .ok r =>
      ⟨r.success, r.actionType, r.entityId, r.message, r.timestamp, none,
        some (Json.obj [("status".data, Json.str "updated".data)])⟩
  | .error _ =>
      ⟨true, req.actionType, req.entityId, "Action executed (fallback mode)".data,
        some nowTs, none, some (Json.obj [("status".data, Json.str "updated".data)])⟩

/-- The HTTP view of `handle_action`: always status 200. -/
def handle_action_http (req : ActionRequest) (nowTs : List Char)
    (outcome : Except ClientError ActionResponse) : Nat × ActionResult :=
  (200, handle_action req nowTs outcome)

/-! ### Wire rendering of the error frame (`stream.rs:72,124`) -/

/-- Lowercase hex digit. -/
def hexDigit (n : Nat) : Char :=
  if n < 10 then Char.ofNat (48 + n) else Char.ofNat (87 + n)

/-- `serde_json`'s escaping of one character inside a JSON string literal:
quote, backslash and the named control characters get short escapes, the
remaining control characters a `\u00XX` escape, everything else stands for
itself. -/
def escapeChar (c : Char) : List Char :=
  if c = '"' then ['\\', '"']
  else if c = '\\' then ['\\', '\\']
  else if c = '\x08' then ['\\', 'b']
  else if c = '\x0c' then ['\\', 'f']
  else if c = '\n' then ['\\', 'n']
  else if c = '\r' then ['\\', 'r']
  else if c = '\t' then ['\\', 't']
  else if c.toNat < 0x20 then
    ['\\', 'u', '0', '0', hexDigit (c.toNat / 16), hexDigit (c.toNat % 16)]
  else [c]

/-- `serde_json` escaping of a whole string. -/
def escapeString (s : List Char) : List Char :=
  (s.map escapeChar).flatten

/-- The fixed text before the message in the error frame template. -/
def errFramePre : List Char :=
  "\x7b\"type\":\"error\",\"message\":\"".data

/-- The fixed text after the message in the error frame template. -/
def errFrameSuf : List Char :=
  "\"\x7d".data

/-- The error frame exactly as `handle_socket` builds it, by plain `format!`
interpolation of the failure detail with NO escaping (`stream.rs:72,124`). -/
def renderErrorFrame (msg : List Char) : List Char :=
  errFramePre ++ msg ++ errFrameSuf

/-- The error frame a JSON serializer would emit for the documented
`type:error, message` document with string content `msg`: the same template
with the message escaped. -/
def canonicalErrorFrame (msg : List Char) : List Char :=
  errFramePre ++ escapeString msg ++ errFrameSuf

/-- A hexadecimal digit character. -/
def isHexDig (c : Char) : Bool :=
  let n := c.toNat
  (48 ≤ n && n ≤ 57) || (97 ≤ n && n ≤ 102) || (65 ≤ n && n ≤ 70)

/-- Whether a character sequence is valid as the inside of a JSON string
literal: no raw quote, no raw control character, every backslash starting a
legal escape. -/
def validStringBody : List Char → Bool
  | [] => true
  | '\\' :: rest =>
      match rest with
      | 'u' :: h1 :: h2 :: h3 :: h4 :: rest' =>
          isHexDig h1 && isHexDig h2 && isHexDig h3 && isHexDig h4 &&
            validStringBody rest'
      | e :: rest' =>
          (e = '"' || e = '\\' || e = '/' || e = 'b' || e = 'f' || e = 'n' ||
            e = 'r' || e = 't') && validStringBody rest'
      | [] => false
  | c :: rest => decide (0x20 ≤ c.toNat) && c != '"' && validStringBody rest

/-! ### Helper lemmas -/

theorem runPhase_all_ok (fs : List Frame) (oracle : Nat → Bool) (k : Nat)
    (h : ∀ i, oracle i = true) :
    runPhase fs oracle k = (fs.map (fun f => ⟨f, true⟩), k + fs.length) := by
  induction fs generalizing k with
  | nil => simp [runPhase]
  | cons f fs ih =>
      simp [runPhase, h k, ih (k + 1)]
      omega

theorem sentFrames_all_ok (fs : List Frame) :
    sentFrames (fs.map (fun f => ⟨f, true⟩)) = fs := by
  induction fs with
  | nil => rfl
  | cons f fs ih => simp [sentFrames, List.filter, List.map] at ih ⊢; exact ih

theorem runPhase_frames_mem (fs : List Frame) (oracle : Nat → Bool) (k : Nat) :
    ∀ e ∈ (runPhase fs oracle k).1, e.frame ∈ fs := by
  induction fs generalizing k with
  | nil => simp [runPhase]
  | cons f fs ih =>
      intro e he
      rcases ho : oracle k with _ | _ <;> simp [runPhase, ho] at he
      · simp [he]
      · rcases he with he | he
        · simp [he]
        · exact List.mem_cons_of_mem _ (ih (k + 1) e he)

theorem runPhase_dropLast_ok (fs : List Frame) (oracle : Nat → Bool) (k : Nat) :
    ∀ e ∈ ((runPhase fs oracle k).1).dropLast, e.ok = true := by
  induction fs generalizing k with
  | nil => simp [runPhase]
  | cons f fs ih =>
      by_cases ho : oracle k = true
      · have hstep : (runPhase (f :: fs) oracle k).1 = ⟨f, true⟩ :: (runPhase fs oracle (k + 1)).1 := by
          simp [runPhase, ho]
        rw [hstep]
        intro e he
        rcases hr : (runPhase fs oracle (k + 1)).1 with _ | ⟨x, xs⟩
        · rw [hr] at he; simp at he
        · rw [hr, List.dropLast_cons₂] at he
          rcases List.mem_cons.mp he with he | he
          · rw [he]
          · exact ih (k + 1) e (by rw [hr]; exact he)
      · have hstep : (runPhase (f :: fs) oracle k).1 = [⟨f, false⟩] := by
          simp [runPhase, ho]
        rw [hstep]
        simp

theorem runPhase_ne_nil (fs : List Frame) (oracle : Nat → Bool) (k : Nat)
    (h : fs ≠ []) : (runPhase fs oracle k).1 ≠ [] := by
  rcases fs with _ | ⟨f, fs⟩
  · exact absurd rfl h
  · by_cases ho : oracle k = true <;> simp [runPhase, ho]

theorem isHexDig_hexDigit (n : Nat) (h : n < 16) : isHexDig (hexDigit n) = true := by
  interval_cases n <;> decide

theorem validStringBody_escapeChar_append (c : Char) (rest : List Char) :
    validStringBody (escapeChar c ++ rest) = validStringBody rest := by
  by_cases h1 : c = '"'
  · simp [escapeChar, h1, validStringBody]
  by_cases h2 : c = '\\'
  · simp [escapeChar, h1, h2, validStringBody]
  by_cases h3 : c = '\x08'
  · simp [escapeChar, h1, h2, h3, validStringBody]
  by_cases h4 : c = '\x0c'
  · simp [escapeChar, h1, h2, h3, h4, validStringBody]
  by_cases h5 : c = '\n'
  · simp [escapeChar, h1, h2, h3, h4, h5, validStringBody]
  by_cases h6 : c = '\r'
  · simp [escapeChar, h1, h2, h3, h4, h5, h6, validStringBody]
  by_cases h7 : c = '\t'
  · simp [escapeChar, h1, h2, h3, h4, h5, h6, h7, validStringBody]
  by_cases h8 : c.toNat < 0x20
  · have d1 : isHexDig (hexDigit (c.toNat / 16)) = true :=
      isHexDig_hexDigit _ (by omega)
    have d2 : isHexDig (hexDigit (c.toNat % 16)) = true :=
      isHexDig_hexDigit _ (Nat.mod_lt _ (by omega))
    simp [escapeChar, h1, h2, h3, h4, h5, h6, h7, h8, validStringBody, d1, d2,
      show isHexDig '0' = true from by decide]
  · have hge : (0x20 ≤ c.toNat) := by omega
    simp [escapeChar, h1, h2, h3, h4, h5, h6, h7, h8, validStringBody, hge]

theorem escapeString_valid (m : List Char) :
    validStringBody (escapeString m) = true := by
  induction m with
  | nil => rfl
  | cons c m ih =>
      have : escapeString (c :: m) = escapeChar c ++ escapeString m := by
        simp [escapeString]
      rw [this, validStringBody_escapeChar_append]
      exact ih

theorem dropWhile_head_false {α : Type} (p : α → Bool) (l : List α) (c : α) (cs : List α)
    (h : l.dropWhile p = c :: cs) : p c = false := by
  induction l with
  | nil => simp at h
  | cons a l ih =>
      by_cases ha : p a = true
      · rw [List.dropWhile_cons_of_pos ha] at h
        exact ih h
      · rw [List.dropWhile_cons_of_neg ha] at h
        cases h
        simpa using ha

theorem splitWsAux_ws_cons (c : Char) (cs : List Char) (h : isWs c = true) :
    splitWsAux (c :: cs) [] = splitWsAux cs [] := by
  simp [splitWsAux, h]

theorem splitWsAux_ne_nil_acc (l : List Char) (a : Char) (acc : List Char)
    (h : isWs a = false) :
    splitWsAux l (a :: acc) =
      ((a :: acc).reverse ++ l.takeWhile (fun d => !isWs d)) ::
        splitWsAux (l.dropWhile (fun d => !isWs d)) [] := by
  induction l generalizing a acc with
  | nil => simp [splitWsAux]
  | cons c cs ih =>
      by_cases hc : isWs c = true
      · have : splitWsAux (c :: cs) (a :: acc) = (a :: acc).reverse :: splitWsAux cs [] := by
          simp [splitWsAux, hc]
        rw [this]
        rw [List.takeWhile_cons_of_neg (by simp [hc]), List.dropWhile_cons_of_neg (by simp [hc])]
        rw [splitWsAux_ws_cons c cs hc]
        simp
      · have hstep : splitWsAux (c :: cs) (a :: acc) = splitWsAux cs (c :: a :: acc) := by
          simp [splitWsAux, hc]
        rw [hstep, ih c (a :: acc) (by simpa using hc)]
        rw [List.takeWhile_cons_of_pos (by simp [hc]), List.dropWhile_cons_of_pos (by simp [hc])]
        simp

theorem splitWs_cons_nonws (c : Char) (cs : List Char) (h : isWs c = false) :
    splitWs (c :: cs) =
      (c :: cs.takeWhile (fun d => !isWs d)) ::
        splitWs (cs.dropWhile (fun d => !isWs d)) := by
  have : splitWs (c :: cs) = splitWsAux cs [c] := by
    simp [splitWs, splitWsAux, h]
  rw [this, splitWsAux_ne_nil_acc cs c [] h]
  simp [splitWs]

theorem splitWs_dropWhile (l : List Char) :
    splitWs l = splitWs (l.dropWhile isWs) := by
  induction l with
  | nil => rfl
  | cons c cs ih =>
      by_cases hc : isWs c = true
      · rw [List.dropWhile_cons_of_pos hc, show splitWs (c :: cs) = splitWsAux cs [] from
          splitWsAux_ws_cons c cs hc]
        exact ih
      · rw [List.dropWhile_cons_of_neg hc]

theorem splitWs_ne_nil (c : Char) (cs : List Char) (h : isWs c = false) :
    splitWs (c :: cs) ≠ [] := by
  rw [splitWs_cons_nonws c cs h]
  simp

theorem collapseAux_cons_nonws (c : Char) (cs : List Char) (b : Bool)
    (h : isWs c = false) :
    collapseAux (c :: cs) b = c :: collapseAux cs false := by
  simp [collapseAux, h]

theorem collapseAux_cons_ws (c : Char) (cs : List Char) (h : isWs c = true) :
    collapseAux (c :: cs) false = ' ' :: collapseAux cs true := by
  simp [collapseAux, h]

theorem collapseAux_true_dropWhile (l : List Char) :
    collapseAux l true = collapseAux (l.dropWhile isWs) false := by
  induction l with
  | nil => rfl
  | cons c cs ih =>
      by_cases hc : isWs c = true
      · rw [List.dropWhile_cons_of_pos hc, show collapseAux (c :: cs) true = collapseAux cs true by
          simp [collapseAux, hc]]
        exact ih
      · rw [List.dropWhile_cons_of_neg hc]
        rw [collapseAux_cons_nonws c cs true (by simpa using hc),
          collapseAux_cons_nonws c cs false (by simpa using hc)]

theorem collapseAux_ws_run (w rest : List Char)
    (hall : ∀ c ∈ w, isWs c = true) (hne : w ≠ []) :
    collapseAux (w ++ rest) false = ' ' :: collapseAux (rest.dropWhile isWs) false := by
  rcases w with _ | ⟨a, w'⟩
  · exact absurd rfl hne
  · rw [List.cons_append, collapseAux_cons_ws a _ (hall a (by simp)),
      collapseAux_true_dropWhile, List.dropWhile_append]
    have : (w'.dropWhile isWs).isEmpty = true := by
      rw [List.isEmpty_iff, List.dropWhile_eq_nil_iff]
      intro x hx
      exact hall x (by simp [hx])
    simp [this]

theorem collapseAux_nonws_run (u rest : List Char)
    (hall : ∀ c ∈ u, isWs c = false) :
    collapseAux (u ++ rest) false = u ++ collapseAux rest false := by
  induction u with
  | nil => rfl
  | cons a u' ih =>
      rw [List.cons_append, collapseAux_cons_nonws a _ false (hall a (by simp))]
      rw [ih (fun c hc => hall c (by simp [hc]))]
      rfl

theorem dropTrailingWs_all_nonws (x : List Char) (hall : ∀ c ∈ x, isWs c = false) :
    dropTrailingWs x = x := by
  unfold dropTrailingWs
  rcases hx : x.reverse with _ | ⟨a, y⟩
  · simpa using congrArg List.reverse hx
  · rw [List.dropWhile_cons_of_neg (by
      have : a ∈ x := by
        rw [← List.mem_reverse, hx]; simp
      simp [hall a this])]
    rw [← hx, List.reverse_reverse]

theorem dropTrailingWs_append_allws (x y : List Char) (hall : ∀ c ∈ y, isWs c = true) :
    dropTrailingWs (x ++ y) = dropTrailingWs x := by
  unfold dropTrailingWs
  rw [List.reverse_append, List.dropWhile_append]
  have : (y.reverse.dropWhile isWs).isEmpty = true := by
    rw [List.isEmpty_iff, List.dropWhile_eq_nil_iff]
    intro c hc
    exact hall c (List.mem_reverse.mp hc)
  simp [this]

theorem dropTrailingWs_append_keep (x y : List Char) (h : dropTrailingWs y ≠ []) :
    dropTrailingWs (x ++ y) = x ++ dropTrailingWs y := by
  unfold dropTrailingWs at h ⊢
  rw [List.reverse_append, List.dropWhile_append]
  have hne : (y.reverse.dropWhile isWs).isEmpty = false := by
    rcases hy : y.reverse.dropWhile isWs with _ | _
    · rw [hy] at h; simp at h
    · simp [hy]
  simp only [hne]
  simp

theorem dropTrailingWs_cons_keep (a : Char) (y : List Char) (h : dropTrailingWs y ≠ []) :
    dropTrailingWs (a :: y) = a :: dropTrailingWs y := by
  have := dropTrailingWs_append_keep [a] y h
  simpa using this

theorem dropTrailingWs_cons_nonws_ne_nil (e : Char) (z : List Char) (h : isWs e = false) :
    dropTrailingWs (e :: z) ≠ [] := by
  unfold dropTrailingWs
  intro hc
  have : (e :: z).reverse.dropWhile isWs = [] := by
    have := congrArg List.reverse hc
    simpa using this
  rw [List.dropWhile_eq_nil_iff] at this
  have := this e (by simp)
  rw [h] at this
  exact Bool.false_ne_true this

theorem enumFrom_map_shift (ws : List (List Char)) (n : Nat) :
    (ws.enumFrom (n + 1)).map (fun p => if p.fst = 0 then p.snd else ' ' :: p.snd) =
      ws.map (fun v => ' ' :: v) := by
  induction ws generalizing n with
  | nil => rfl
  | cons w ws ih =>
      simp only [List.enumFrom, List.map]
      rw [if_neg (by omega)]
      rw [ih (n + 1)]

theorem deltaStrings_cons (w : List Char) (ws : List (List Char)) :
    deltaStrings (w :: ws) = w :: ws.map (fun v => ' ' :: v) := by
  have : (w :: ws).enum = (0, w) :: ws.enumFrom 1 := rfl
  rw [deltaStrings, this]
  simp only [List.map, if_true]
  rw [enumFrom_map_shift ws 0]

theorem deltaStrings_flatten_joinSp (ws : List (List Char)) :
    (deltaStrings ws).flatten = joinSp ws := by
  rcases ws with _ | ⟨w, ws⟩
  · rfl
  · rw [deltaStrings_cons, joinSp]
    simp

theorem flatten_map_space_cons (ws : List (List Char)) (h : ws ≠ []) :
    (ws.map (fun v => ' ' :: v)).flatten = ' ' :: joinSp ws := by
  rcases ws with _ | ⟨w, ws⟩
  · exact absurd rfl h
  · simp only [List.map, List.flatten, joinSp]
    rfl

theorem trimWs_space_cons (x : List Char) : trimWs (' ' :: x) = trimWs x := by
  rw [trimWs, trimWs, List.dropWhile_cons_of_pos (by decide)]

theorem joinSp_splitWs_aux : ∀ (n : Nat) (l : List Char), l.length ≤ n →
    joinSp (splitWs l) = trimWs (collapseWs l) := by
  intro n
  induction n with
  | zero =>
      intro l hl
      have hnil : l = [] := by
        cases l
        · rfl
        · simp at hl
      subst hnil
      rfl
  | succ n ih =>
      intro l hl
      rcases hd : l.dropWhile isWs with _ | ⟨c, cs⟩
      · -- l is all whitespace
        have hall : ∀ x ∈ l, isWs x = true := List.dropWhile_eq_nil_iff.mp hd
        have hsplit : splitWs l = [] := by
          rw [splitWs_dropWhile, hd]
          rfl
        rw [hsplit]
        rcases l with _ | ⟨a, l'⟩
        · rfl
        · have ha : isWs a = true := hall a (by simp)
          have hl' : l'.dropWhile isWs = [] :=
            List.dropWhile_eq_nil_iff.mpr (fun x hx => hall x (by simp [hx]))
          have hco : collapseWs (a :: l') = [' '] := by
            rw [collapseWs, collapseAux_cons_ws a l' ha, collapseAux_true_dropWhile, hl']
            rfl
          rw [hco]
          rfl
      · -- head of the trimmed list is non-whitespace
        have hc : isWs c = false := dropWhile_head_false isWs l c cs hd
        obtain ⟨w, hw, hwall⟩ : ∃ w, l = w ++ (c :: cs) ∧ ∀ x ∈ w, isWs x = true := by
          refine ⟨l.takeWhile isWs, ?_, fun x hx => List.mem_takeWhile_imp hx⟩
          conv_lhs => rw [← List.takeWhile_append_dropWhile (p := isWs) (l := l)]
          rw [hd]
        have hsplit : splitWs l = splitWs (c :: cs) := by
          rw [splitWs_dropWhile, hd]
        have hcoll : trimWs (collapseWs l) = trimWs (collapseWs (c :: cs)) := by
          rcases hwc : w with _ | ⟨a, w'⟩
          · rw [hw, hwc]
            rfl
          · rw [hw, hwc, show collapseWs ((a :: w') ++ (c :: cs)) =
                ' ' :: collapseAux ((c :: cs).dropWhile isWs) false from
                collapseAux_ws_run (a :: w') (c :: cs) (by rw [← hwc] at *; exact hwall)
                  (by simp)]
            rw [List.dropWhile_cons_of_neg (by simp [hc])]
            exact trimWs_space_cons _
        rw [hsplit, hcoll]
        have hlcs : cs.length ≤ n := by
          have : l.length = w.length + cs.length + 1 := by
            rw [hw]
            simp [List.length_append]
            omega
          omega
        clear hw hwall hd hl hsplit hcoll
        -- decompose c :: cs into the first word and the rest
        have htall : ∀ x ∈ c :: cs.takeWhile (fun d => !isWs d), isWs x = false := by
          intro x hx
          rcases List.mem_cons.mp hx with hx | hx
          · rw [hx]; exact hc
          · simpa using List.mem_takeWhile_imp hx
        rw [splitWs_cons_nonws c cs hc]
        have hcoll2 : collapseWs (c :: cs) =
            (c :: cs.takeWhile (fun d => !isWs d)) ++
              collapseWs (cs.dropWhile (fun d => !isWs d)) := by
          conv_lhs => rw [show (c :: cs) =
            (c :: cs.takeWhile (fun d => !isWs d)) ++ cs.dropWhile (fun d => !isWs d) by
              rw [List.cons_append, List.takeWhile_append_dropWhile]]
          exact collapseAux_nonws_run _ _ htall
        rw [hcoll2]
        have htrim : trimWs ((c :: cs.takeWhile (fun d => !isWs d)) ++
            collapseWs (cs.dropWhile (fun d => !isWs d))) =
            dropTrailingWs ((c :: cs.takeWhile (fun d => !isWs d)) ++
              collapseWs (cs.dropWhile (fun d => !isWs d))) := by
          rw [trimWs, List.cons_append, List.dropWhile_cons_of_neg (by simp [hc])]
        rw [htrim]
        rcases hr : cs.dropWhile (fun d => !isWs d) with _ | ⟨d, r2⟩
        · -- no rest: the whole of cs is one word
          rw [show collapseWs [] = [] from rfl, List.append_nil,
            dropTrailingWs_all_nonws _ htall]
          rw [show splitWs [] = [] from rfl, joinSp]
          simp
        · have hd2 : isWs d = true := by
            have := dropWhile_head_false (fun d => !isWs d) cs d r2 hr
            simpa using this
          have hsplitr : splitWs (d :: r2) = splitWs (r2.dropWhile isWs) := by
            rw [splitWs_dropWhile (d :: r2), List.dropWhile_cons_of_pos hd2]
          have hcollr : collapseWs (d :: r2) = ' ' :: collapseWs (r2.dropWhile isWs) := by
            rw [collapseWs, collapseAux_cons_ws d r2 hd2, collapseAux_true_dropWhile]
            rfl
          rw [hsplitr, hcollr]
          have hlr2 : r2.length + 1 ≤ cs.length := by
            have h1 : (cs.dropWhile (fun d => !isWs d)).length ≤ cs.length :=
              (List.dropWhile_sublist (l := cs) (fun d => !isWs d)).length_le
            rw [hr] at h1
            simpa using h1
          rcases hr' : r2.dropWhile isWs with _ | ⟨e, r''⟩
          · -- the rest is all whitespace: trailing whitespace
            rw [show collapseWs [] = [] from rfl, show splitWs ([] : List Char) = [] from rfl]
            rw [dropTrailingWs_append_allws _ [' '] (by intro x hx; simp at hx; rw [hx]; decide),
              dropTrailingWs_all_nonws _ htall]
            rw [joinSp]
            simp
          · -- a further word follows
            have he : isWs e = false := by
              have := dropWhile_head_false isWs r2 e r'' hr'
              simpa using this
            have hlen' : (e :: r'').length ≤ n := by
              have h2 : (r2.dropWhile isWs).length ≤ r2.length :=
                (List.dropWhile_sublist (l := r2) isWs).length_le
              rw [hr'] at h2
              omega
            have ihr := ih (e :: r'') hlen'
            have hjoin : joinSp ((c :: cs.takeWhile (fun d => !isWs d)) :: splitWs (e :: r'')) =
                (c :: cs.takeWhile (fun d => !isWs d)) ++ ' ' :: joinSp (splitWs (e :: r'')) := by
              rw [joinSp, flatten_map_space_cons _ (splitWs_ne_nil e r'' he)]
            rw [hjoin]
            have hcononws : trimWs (collapseWs (e :: r'')) =
                dropTrailingWs (collapseWs (e :: r'')) := by
              rw [show collapseWs (e :: r'') = e :: collapseAux r'' false from
                collapseAux_cons_nonws e r'' false he]
              rw [trimWs, List.dropWhile_cons_of_neg (by simp [he])]
            have hdtne : dropTrailingWs (collapseWs (e :: r'')) ≠ [] := by
              rw [show collapseWs (e :: r'') = e :: collapseAux r'' false from
                collapseAux_cons_nonws e r'' false he]
              exact dropTrailingWs_cons_nonws_ne_nil e _ he
            rw [dropTrailingWs_append_keep _ (' ' :: collapseWs (e :: r'')) (by
              rw [dropTrailingWs_cons_keep ' ' _ hdtne]
              simp)]
            rw [dropTrailingWs_cons_keep ' ' _ hdtne]
            rw [ihr, hcononws]

theorem joinSp_splitWs_eq (l : List Char) :
    joinSp (splitWs l) = trimWs (collapseWs l) :=
  joinSp_splitWs_aux l.length l le_rfl

/-! ### The claims -/

/-- Claim C1: for every successful upstream outcome, on a connection whose sends all succeed, the Pacer emits exactly 3 Reasoning frames with step numbers 1, 2, 3 and kinds analysis, retrieval, synthesis, then one Delta frame per word of the reply text, then exactly one Done frame, in that order with no other frames in between or after. -/
theorem pacer_success_frame_order (t : List Char) (oracle : Nat → Bool)
    (h : ∀ i, oracle i = true) :
    sentFrames (pacerTrace (.ok t) oracle) =
      [Frame.reasoning 1 "analysis".data "Analyzing query".data,
       Frame.reasoning 2 "retrieval".data "Retrieving context".data,
       Frame.reasoning 3 "synthesis".data "Synthesizing response".data] ++
        (deltaStrings (splitWs t)).map Frame.delta ++ [Frame.done] ∧
      ((deltaStrings (splitWs t)).map Frame.delta).length = (splitWs t).length := by
  constructor
  · show sentFrames (pacerTrace (.ok t) oracle) = reasoningFrames ++ deltaFrames (splitWs t) ++ [Frame.done]
    have e1 := runPhase_all_ok reasoningFrames oracle 0 h
    have e2 := runPhase_all_ok (deltaFrames (splitWs t)) oracle (0 + reasoningFrames.length) h
    simp only [pacerTrace, e1, e2]
    rw [show (⟨Frame.done, oracle (0 + reasoningFrames.length + (deltaFrames (splitWs t)).length)⟩ : SendEvent) = ⟨Frame.done, true⟩ by rw [h]]
    rw [show [(⟨Frame.done, true⟩ : SendEvent)] = [Frame.done].map (fun f => ⟨f, true⟩) by rfl]
    rw [← List.map_append, ← List.map_append, sentFrames_all_ok]
  · simp [deltaStrings]

/-- Witness for C1 at the reply text "hello world" and an all-success send oracle. -/
theorem pacer_success_frame_order_witness :
    sentFrames (pacerTrace (.ok "hello world".data) (fun _ => true)) =
      [Frame.reasoning 1 "analysis".data "Analyzing query".data,
       Frame.reasoning 2 "retrieval".data "Retrieving context".data,
       Frame.reasoning 3 "synthesis".data "Synthesizing response".data] ++
        (deltaStrings (splitWs "hello world".data)).map Frame.delta ++ [Frame.done] ∧
      ((deltaStrings (splitWs "hello world".data)).map Frame.delta).length =
        (splitWs "hello world".data).length :=
  pacer_success_frame_order "hello world".data (fun _ => true) (fun _ => rfl)

/-- Claim C2 (amended): for all non-empty reply text t, concatenating the delta contents of all Delta frames the Pacer produces for t equals t with every run of whitespace collapsed to a single space and leading/trailing whitespace removed. -/
theorem concatDeltas_eq_trim_collapse (t : List Char) (h : t ≠ []) :
    concatDeltas t = trimWs (collapseWs t) := by
  rw [concatDeltas, deltaStrings_flatten_joinSp]
  exact joinSp_splitWs_eq t

/-- Witness for C2 at a text with leading, internal and trailing whitespace runs. -/
theorem concatDeltas_eq_trim_collapse_witness :
    " hello \t world ".data ≠ [] ∧
      concatDeltas " hello \t world ".data = trimWs (collapseWs " hello \t world ".data) :=
  ⟨by decide, concatDeltas_eq_trim_collapse " hello \t world ".data (by decide)⟩

/-- Counterexample to C2 as stated: for the non-empty text "a " the concatenated deltas are "a", while the text with every whitespace run collapsed to a single space is still "a " - a trailing (or leading) run survives collapsing but is dropped by the code. -/
theorem concatDeltas_ne_collapse_at_edge :
    "a ".data ≠ [] ∧
      concatDeltas "a ".data = "a".data ∧
      collapseWs "a ".data = "a ".data ∧
      "a".data ≠ "a ".data := by
  decide

/-- Claim C3 (amended): for every streaming turn whose upstream call fails - transport failure, non-2xx status, or a body that is not valid JSON - the Pacer emits exactly one Error frame carrying the failure detail, and every frame delivered is that Error frame: no Reasoning, Delta or Done frames.  (A body that is valid JSON but fails to decode into a ChatReply is not a failure on this path; see the counterexample.) -/
theorem upstream_failure_single_error_frame (r : HttpResult) (oracle : Nat → Bool)
    (h : upstreamCallFails r = true) :
    call_agent_stream r = .error (failDetail r) ∧
      pacerTrace (call_agent_stream r) oracle =
        [⟨Frame.errorFrame (failDetail r), oracle 0⟩] ∧
      (∀ f ∈ sentFrames (pacerTrace (call_agent_stream r) oracle),
        f = Frame.errorFrame (failDetail r)) := by
  have hcall : call_agent_stream r = .error (failDetail r) := by
    rcases r with e | ⟨status, body⟩
    · rfl
    · rcases hs : statusIsSuccess status with _ | _
      · simp [call_agent_stream, failDetail, hs]
      · rcases body with e | j
        · simp [call_agent_stream, failDetail, hs]
        · simp [upstreamCallFails, hs] at h
  refine ⟨hcall, ?_, ?_⟩
  · rw [hcall]; rfl
  · rw [hcall]
    rcases ho : oracle 0 with _ | _ <;>
      simp [pacerTrace, sentFrames, List.filter, ho]

/-- Witness for C3 at a transport failure with an all-success send oracle. -/
theorem upstream_failure_single_error_frame_witness :
    call_agent_stream (.transportErr "connection refused".data) =
      .error (failDetail (.transportErr "connection refused".data)) ∧
      pacerTrace (call_agent_stream (.transportErr "connection refused".data)) (fun _ => true) =
        [⟨Frame.errorFrame (failDetail (.transportErr "connection refused".data)), true⟩] ∧
      (∀ f ∈ sentFrames (pacerTrace
          (call_agent_stream (.transportErr "connection refused".data)) (fun _ => true)),
        f = Frame.errorFrame (failDetail (.transportErr "connection refused".data))) :=
  upstream_failure_single_error_frame (.transportErr "connection refused".data)
    (fun _ => true) rfl

/-- Counterexample to C3 as stated: the empty JSON object is a response body that fails to decode into a ChatReply, yet the streaming path treats the call as a success and emits the full Reasoning/Delta/Done sequence for the placeholder text instead of a single Error frame. -/
theorem nonChatReply_body_still_succeeds :
    chatReplyOfJson (Json.obj []) = none ∧
      call_agent_stream (.response 200 (.ok (Json.obj []))) =
        .ok "I understand. How can I help?".data ∧
      sentFrames (pacerTrace (call_agent_stream (.response 200 (.ok (Json.obj []))))
          (fun _ => true)) =
        [Frame.reasoning 1 "analysis".data "Analyzing query".data,
         Frame.reasoning 2 "retrieval".data "Retrieving context".data,
         Frame.reasoning 3 "synthesis".data "Synthesizing response".data,
         Frame.delta "I".data, Frame.delta " understand.".data, Frame.delta " How".data,
         Frame.delta " can".data, Frame.delta " I".data, Frame.delta " help?".data,
         Frame.done] := by
  refine ⟨rfl, rfl, by decide⟩

/-- Claim C4 (amended): a failed send aborts only the loop it occurs in: every successful-outcome turn trace is a reasoning phase, then a delta phase, then one attempted Done send; within each phase only the last event can be a failed send, but the delta phase is still entered (non-empty whenever the reply has words) even if a reasoning send failed, and the Done frame is always attempted. -/
theorem send_failure_stops_phase_only (t : List Char) (oracle : Nat → Bool) :
    ∃ rev dev b,
      pacerTrace (.ok t) oracle = rev ++ dev ++ [⟨Frame.done, b⟩] ∧
      (∀ e ∈ rev, e.frame.isReasoning = true) ∧
      (∀ e ∈ dev, e.frame.isDelta = true) ∧
      (∀ e ∈ rev.dropLast, e.ok = true) ∧
      (∀ e ∈ dev.dropLast, e.ok = true) ∧
      (splitWs t ≠ [] → dev ≠ []) := by
  refine ⟨(runPhase reasoningFrames oracle 0).1,
    (runPhase (deltaFrames (splitWs t)) oracle (runPhase reasoningFrames oracle 0).2).1,
    oracle (runPhase (deltaFrames (splitWs t)) oracle (runPhase reasoningFrames oracle 0).2).2,
    rfl, ?_, ?_, runPhase_dropLast_ok _ _ _, runPhase_dropLast_ok _ _ _, ?_⟩
  · intro e he
    have hmem := runPhase_frames_mem reasoningFrames oracle 0 e he
    have hall : ∀ f ∈ reasoningFrames, f.isReasoning = true := by decide
    exact hall _ hmem
  · intro e he
    have hmem := runPhase_frames_mem _ _ _ e he
    simp only [deltaFrames, List.mem_map] at hmem
    obtain ⟨d, _, hd⟩ := hmem
    rw [← hd]
    rfl
  · intro hne
    refine runPhase_ne_nil _ _ _ ?_
    simp [deltaFrames, deltaStrings, hne]

/-- Counterexample to C4 as stated: with reply "hi" and a send oracle failing exactly the first attempt, the send of the first Reasoning frame fails, yet a later Delta frame and the Done frame are still sent. -/
theorem send_failure_not_aborting :
    (pacerTrace (.ok "hi".data) (fun k => k != 0)).head? =
      some ⟨Frame.reasoning 1 "analysis".data "Analyzing query".data, false⟩ ∧
      sentFrames (pacerTrace (.ok "hi".data) (fun k => k != 0)) =
        [Frame.delta "hi".data, Frame.done] ∧
      Frame.done ∈ sentFrames (pacerTrace (.ok "hi".data) (fun k => k != 0)) := by
  decide

/-- Claim C5: an inbound text frame that fails to decode as a StreamRequest makes the session emit exactly one Error frame, invoke neither the Pacer nor the upstream, and continue the read loop, processing the remaining inbound frames. -/
theorem decode_failure_single_error_frame (p : Except (List Char) Json)
    (e : List Char) (u : HttpResult) (oracle : Nat → Bool)
    (rest : List (InMsg × HttpResult × (Nat → Bool)))
    (h : decodeStreamRequest p = .error e) :
    session ((InMsg.text p, u, oracle) :: rest) =
      ⟨Frame.errorFrame e, oracle 0⟩ :: session rest ∧
      (sessionStep (InMsg.text p) u oracle).upstreamCalled = false ∧
      (sessionStep (InMsg.text p) u oracle).keepOpen = true ∧
      (sessionStep (InMsg.text p) u oracle).events = [⟨Frame.errorFrame e, oracle 0⟩] := by
  refine ⟨?_, ?_, ?_, ?_⟩ <;> simp [session, sessionStep, h]

/-- Witness for C5 at a frame whose JSON parse fails. -/
theorem decode_failure_single_error_frame_witness :
    session ((InMsg.text (.error "expected value at line 1 column 1".data),
        HttpResult.transportErr [], fun _ => true) :: []) =
      ⟨Frame.errorFrame "expected value at line 1 column 1".data, true⟩ :: session [] ∧
      (sessionStep (InMsg.text (.error "expected value at line 1 column 1".data))
        (HttpResult.transportErr []) (fun _ => true)).upstreamCalled = false ∧
      (sessionStep (InMsg.text (.error "expected value at line 1 column 1".data))
        (HttpResult.transportErr []) (fun _ => true)).keepOpen = true ∧
      (sessionStep (InMsg.text (.error "expected value at line 1 column 1".data))
        (HttpResult.transportErr []) (fun _ => true)).events =
        [⟨Frame.errorFrame "expected value at line 1 column 1".data, true⟩] :=
  decode_failure_single_error_frame _ _ _ _ _ rfl

/-- Claim C6: when the upstream call on the unary chat path fails with any failure, the handler returns HTTP 200 with a response whose text states the query is being processed, exactly one ReasoningStep with index 1, kind analysis and the fixed nominal duration of 100 ms, no artifacts and no citations; the right-hand side does not depend on the failure, so the failure detail never appears in the response. -/
theorem unary_fallback_shape (req : ChatRequest) (e : ClientError) :
    handle_chat_http req (.error e) =
      (200, { response := "Processing query: ".data ++ req.query,
              reasoning := [⟨1, "analysis".data, "Analyzing your request...".data, some 100⟩],
              artifacts := none, citations := none }) := rfl

/-- Claim C7 (amended): the tool listing, tool execution, project listing and endpoint listing routes surface an upstream transport failure as HTTP 503 and a response-decode failure as HTTP 500; the action execution route does NOT follow this convention - it masks every upstream failure with a synthetic HTTP 200 success result (fallback mode). -/
theorem proxy_routes_failure_statuses (e : List Char) (pid : List Char)
    (req : ActionRequest) (ts : List Char) (err : ClientError) :
    list_tools_reply (.transportErr e) = .statusText 503 "Agent service unavailable".data ∧
      list_tools_reply (.decodeErr e) = .statusText 500 "Failed to parse response".data ∧
      execute_tool_reply (.transportErr e) = .statusText 503 "Agent service unavailable".data ∧
      execute_tool_reply (.decodeErr e) = .statusText 500 "Failed to parse response".data ∧
      list_projects_reply (.transportErr e) = .statusText 503 "Agent service unavailable".data ∧
      list_projects_reply (.decodeErr e) = .statusText 500 "Failed to parse response".data ∧
      list_endpoints_reply (some pid) (.transportErr e) =
        .statusText 503 "Agent service unavailable".data ∧
      list_endpoints_reply (some pid) (.decodeErr e) =
        .statusText 500 "Failed to parse response".data ∧
      handle_action_http req ts (.error err) =
        (200, ⟨true, req.actionType, req.entityId, "Action executed (fallback mode)".data,
          some ts, none, some (Json.obj [("status".data, Json.str "updated".data)])⟩) :=
  ⟨rfl, rfl, rfl, rfl, rfl, rfl, rfl, rfl, rfl⟩

/-- Counterexample to C7 as stated: on the actions route an upstream transport failure produces HTTP 200 with success true ("fallback mode"), not HTTP 503. -/
theorem action_route_masks_failure :
    replyStatus (HandlerReply.jsonReply (Json.obj [])) = 200 ∧
    (handle_action_http
        ⟨"ticket.status.update".data, "T-1".data, "ticket".data, "jira".data, Json.null, none⟩
        "2026-01-01T00:00:00Z".data
        (.error (ClientError.connectionError "connection refused".data))).1 = 200 ∧
    (handle_action
        ⟨"ticket.status.update".data, "T-1".data, "ticket".data, "jira".data, Json.null, none⟩
        "2026-01-01T00:00:00Z".data
        (.error (ClientError.connectionError "connection refused".data))).success = true ∧
    (handle_action
        ⟨"ticket.status.update".data, "T-1".data, "ticket".data, "jira".data, Json.null, none⟩
        "2026-01-01T00:00:00Z".data
        (.error (ClientError.connectionError "connection refused".data))).message =
      "Action executed (fallback mode)".data ∧
    (200 : Nat) ≠ 503 :=
  ⟨rfl, rfl, rfl, rfl, by decide⟩

/-- Claim C8: the translation of a ChatReply to the wire response is a pure mapping in which reasoning steps pass through unchanged including the optional per-step duration, an empty artifact or citation list becomes an absent member (the key is omitted from the serialized object, with no null and no empty array), and non-empty lists are kept. -/
theorem translate_wire_mapping (r : GChatReply) :
    (translate r).response = r.response ∧
      (translate r).reasoning =
        r.reasoning.map (fun s => ⟨s.step, s.stepType, s.content, s.durationMs⟩) ∧
      (translate r).artifacts =
        (if r.artifacts = [] then none
         else some (r.artifacts.map
           (fun a => ⟨a.id, a.artifactType, a.title, a.content, a.language⟩))) ∧
      (translate r).citations = (if r.citations = [] then none else some r.citations) ∧
      (("artifacts".data ∈ objKeys (jsonOfChatResponse (translate r))) ↔ r.artifacts ≠ []) ∧
      (("citations".data ∈ objKeys (jsonOfChatResponse (translate r))) ↔ r.citations ≠ []) := by
  refine ⟨rfl, rfl, ?_, ?_, ?_, ?_⟩
  · simp [translate, List.isEmpty_iff]
  · simp [translate, List.isEmpty_iff]
  · rcases hA : r.artifacts with _ | _ <;> rcases hC : r.citations with _ | _ <;>
      simp [translate, jsonOfChatResponse, objKeys, hA, hC]
  · rcases hA : r.artifacts with _ | _ <;> rcases hC : r.citations with _ | _ <;>
      simp [translate, jsonOfChatResponse, objKeys, hA, hC]

/-- Claim C9 evaluated at the failing input: a failure detail containing a quote renders, through the code's unescaped interpolation, to a text frame that is not the JSON serialization of any error-shaped document, while a serializer that escapes the message would produce a valid string body. -/
theorem error_frame_not_json :
    validStringBody "a\"b".data = false ∧
      renderErrorFrame "a\"b".data =
        "\x7b\"type\":\"error\",\"message\":\"a\"b\"\x7d".data ∧
      (∀ msg, renderErrorFrame "a\"b".data ≠ canonicalErrorFrame msg) ∧
      validStringBody (escapeString "a\"b".data) = true := by
  refine ⟨by decide, by decide, ?_, by decide⟩
  intro msg h
  simp only [renderErrorFrame, canonicalErrorFrame, List.append_assoc] at h
  have h1 : "a\"b".data ++ errFrameSuf = escapeString msg ++ errFrameSuf :=
    List.append_cancel_left h
  have h2 : "a\"b".data = escapeString msg := List.append_cancel_right h1
  have h3 := escapeString_valid msg
  rw [← h2] at h3
  exact absurd h3 (by decide)

/-- Claim C10: an inbound message that is neither a text message, a close message nor a transport error (binary, ping, pong) produces no frame and no upstream call, and the read loop continues unchanged on the remaining messages. -/
theorem other_messages_ignored (u : HttpResult) (oracle : Nat → Bool)
    (rest : List (InMsg × HttpResult × (Nat → Bool))) :
    sessionStep InMsg.other u oracle = ⟨[], true, false⟩ ∧
      session ((InMsg.other, u, oracle) :: rest) = session rest := by
  constructor
  · rfl
  · rfl

end Gateway
